import Mathlib
set_option maxRecDepth 4000

/-!
Shallow embedding, in Lean 4, of the version-discovery and download engine
of `mikrotik_master.py` (class `MasterEngine`), together with theorems that
settle the specification claims about it.

Modelling conventions:
* network effects are supplied as explicit oracles (one `FetchOutcome` per
  attempt number for downloads, one `ProbeResult` per HEAD request for the
  existence probe);
* file contents are `List Nat` (opaque byte streams);
* the filesystem slot at the destination path is an `Option (List Nat)`
  (`none` = no file at the path);
* counters/logs mutated through the GUI sink are returned as explicit
  fields of the result record.
-/

namespace MikroTik

/-- Outcome of one `session.get(url, stream=True)` attempt inside
`MasterEngine.download_file`:
* `status404`  — the response had status code 404 (no exception raised,
  no file touched);
* `error`      — `raise_for_status` raised (non-404 bad status) or the
  request itself raised a transport error, before any directory or file
  was created;
* `midStream part` — the request succeeded, the directory was created and
  the file opened for writing, `part` bytes were written, then the stream
  raised;
* `success content` — the whole body `content` was streamed to the file. -/
inductive FetchOutcome where
  | status404
  | error
  | midStream (part : List Nat)
  | success (content : List Nat)
  deriving Repr, DecidableEq

/-- Observable result of one `download_file` invocation: return value,
final file content at the destination path, number of network requests
issued, the backoff sleeps performed (in seconds, in order), whether the
destination directory was created, the deltas applied to the four
file-related stat counters, and whether a `'ERROR'`-level line was
logged. -/
structure DLOut where
  ok : Bool
  file : Option (List Nat)
  netCalls : Nat
  sleeps : List Nat
  dirMade : Bool
  filesSkipped : Nat
  filesDownloaded : Nat
  filesFailed : Nat
  bytesDownloaded : Nat
  errorLogged : Bool
  deriving Repr, DecidableEq

/-- Result of the `out_path.exists() and out_path.stat().st_size > 0`
early-skip branch of `download_file` (lines 161-164). -/
def skipOut (file : Option (List Nat)) : DLOut :=
  { ok := true, file := file, netCalls := 0, sleeps := [], dirMade := false,
    filesSkipped := 1, filesDownloaded := 0, filesFailed := 0,
    bytesDownloaded := 0, errorLogged := false }

/-- Result of the `if resp.status_code == 404: return False` branch of
`download_file` (lines 167-168). -/
def notFoundOut (file : Option (List Nat)) : DLOut :=
  { ok := false, file := file, netCalls := 1, sleeps := [], dirMade := false,
    filesSkipped := 0, filesDownloaded := 0, filesFailed := 0,
    bytesDownloaded := 0, errorLogged := false }

/-- Result of a fully streamed download (lines 171-182): the directory is
created, the body is written, `files_downloaded` and `bytes_downloaded`
are incremented. -/
def successOut (content : List Nat) : DLOut :=
  { ok := true, file := some content, netCalls := 1, sleeps := [],
    dirMade := true, filesSkipped := 0, filesDownloaded := 1,
    filesFailed := 0, bytesDownloaded := content.length,
    errorLogged := false }

/-- Result of the retry-exhausted branch of `download_file`
(lines 189-198): log at `'ERROR'` level, increment `files_failed`,
unlink the file at the destination path if one exists.  `dirMade`
records whether this final attempt had created the directory. -/
def exhaustOut (dirMade : Bool) : DLOut :=
  { ok := false, file := none, netCalls := 1, sleeps := [],
    dirMade := dirMade, filesSkipped := 0, filesDownloaded := 0,
    filesFailed := 1, bytesDownloaded := 0, errorLogged := true }

/-- The body of one attempt of `MasterEngine.download_file` (lines
160-182): skip when a non-empty file is already present, otherwise fetch;
404 returns failure, success streams the body; any raised exception
continues with `onFail`, which receives the file content at the moment of
the exception and whether this attempt had created the directory. -/
def attempt (oracle : Nat → FetchOutcome) (retryCount : Nat)
    (file : Option (List Nat))
    (onFail : Option (List Nat) → Bool → DLOut) : DLOut :=
  if 0 < (file.getD []).length then
    skipOut file
  else
    match oracle retryCount with
    | .status404 => notFoundOut file
    | .success content => successOut content
    | .error => onFail file false
    | .midStream part => onFail (some part) true

/-- `MasterEngine.download_file` (lines 158-198), with the recursion on
`retry_count` realised structurally on the fuel `maxRetries - retryCount`:
the Python guard `retry_count < self.max_retries` holds exactly when the
fuel is positive, so the two presentations coincide (`download_file_eq`
below re-states the function as the literal source recursion).
`oracle n` is the outcome of the fetch performed by the attempt whose
`retry_count` equals `n`; `file` is the content at the destination path
when the attempt starts. -/
def download_fuel (oracle : Nat → FetchOutcome) (maxRetries : Nat) :
    Nat → Nat → Option (List Nat) → DLOut
  | 0, retryCount, file =>
    attempt oracle retryCount file fun _ dirMade => exhaustOut dirMade
  | fuel' + 1, retryCount, file =>
    attempt oracle retryCount file fun file' dirMade =>
      let rest := download_fuel oracle maxRetries fuel' (retryCount + 1) file'
      { rest with netCalls := rest.netCalls + 1,
                  sleeps := 2 ^ retryCount :: rest.sleeps,
                  dirMade := dirMade || rest.dirMade }

/-- `MasterEngine.download_file(url, version, arch, filename, retry_count)`
with the default `retry_count = 0` supplied by callers; the fuel is the
number of retries still allowed. -/
def download_file (oracle : Nat → FetchOutcome) (maxRetries : Nat)
    (file : Option (List Nat)) (retryCount : Nat := 0) : DLOut :=
  download_fuel oracle maxRetries (maxRetries - retryCount) retryCount file

/-- `download_file` satisfies, for every argument, the literal recursion of
the source (lines 158-198): skip-if-nonempty, 404 short-circuit, streamed
success, and on any other failure either a `2 ^ retry_count` backoff and a
recursive call with `retry_count + 1` (when `retry_count < max_retries`)
or the exhaustion cleanup. -/
theorem download_file_eq (oracle : Nat → FetchOutcome) (maxRetries : Nat)
    (file : Option (List Nat)) (retryCount : Nat) :
    download_file oracle maxRetries file retryCount =
      if 0 < (file.getD []).length then
        skipOut file
      else
        match oracle retryCount with
        | .status404 => notFoundOut file
        | .success content => successOut content
        | .error =>
          if retryCount < maxRetries then
            let rest := download_file oracle maxRetries file (retryCount + 1)
            { rest with netCalls := rest.netCalls + 1,
                        sleeps := 2 ^ retryCount :: rest.sleeps }
          else exhaustOut false
        | .midStream part =>
          if retryCount < maxRetries then
            let rest := download_file oracle maxRetries (some part) (retryCount + 1)
            { rest with netCalls := rest.netCalls + 1,
                        sleeps := 2 ^ retryCount :: rest.sleeps,
                        dirMade := true }
          else exhaustOut true := by
  unfold download_file
  rcases Nat.lt_or_ge retryCount maxRetries with h | h
  · have hf : maxRetries - retryCount = (maxRetries - (retryCount + 1)) + 1 := by omega
    rw [hf, download_fuel]
    unfold attempt
    cases hor : oracle retryCount <;>
      simp [if_pos h, Bool.false_or, Bool.true_or]
  · have hf : maxRetries - retryCount = 0 := by omega
    have h' : ¬ retryCount < maxRetries := by omega
    rw [hf, download_fuel]
    unfold attempt
    cases hor : oracle retryCount <;>
      simp [if_neg h']

/-- A fetch outcome that raises an exception inside the `try` block of
`download_file` (a transport error, a non-404 bad status via
`raise_for_status`, or a mid-stream failure), i.e. one that reaches the
`except` handler. -/
def FetchOutcome.isFailure : FetchOutcome → Bool
  | .error => true
  | .midStream _ => true
  | .status404 => false
  | .success _ => false

/-- If every attempt's fetch raises, then whenever the call returns
failure, no file is left at the destination path. -/
theorem download_fuel_fail_cleanup (oracle : Nat → FetchOutcome)
    (maxRetries : Nat) (hfail : ∀ i, (oracle i).isFailure = true) :
    ∀ fuel retryCount file,
      (download_fuel oracle maxRetries fuel retryCount file).ok = false →
      (download_fuel oracle maxRetries fuel retryCount file).file = none := by
  intro fuel
  induction fuel with
  | zero =>
    intro retryCount file hok
    have h := hfail retryCount
    rw [download_fuel] at hok ⊢
    unfold attempt at hok ⊢
    by_cases hs : 0 < (file.getD []).length
    · rw [if_pos hs] at hok; exact absurd hok (by simp [skipOut])
    · rw [if_neg hs] at hok ⊢
      cases hor : oracle retryCount
      · rw [hor] at h; exact absurd h (by simp [FetchOutcome.isFailure])
      · rfl
      · rfl
      · rw [hor] at h; exact absurd h (by simp [FetchOutcome.isFailure])
  | succ fuel' ih =>
    intro retryCount file hok
    have h := hfail retryCount
    rw [download_fuel] at hok ⊢
    unfold attempt at hok ⊢
    by_cases hs : 0 < (file.getD []).length
    · rw [if_pos hs] at hok; exact absurd hok (by simp [skipOut])
    · rw [if_neg hs] at hok ⊢
      cases hor : oracle retryCount
      · rw [hor] at h; exact absurd h (by simp [FetchOutcome.isFailure])
      · rw [hor] at hok; exact ih (retryCount + 1) file hok
      · next part => rw [hor] at hok; exact ih (retryCount + 1) (some part) hok
      · rw [hor] at h; exact absurd h (by simp [FetchOutcome.isFailure])

/-- C1: for every download target whose fetch raises on the initial
attempt and on every retry until the retry budget is exhausted,
`download_file` deletes any partially written file: after it returns
failure, no file exists at the destination path
`{output}/{version}/{architecture}/{filename}`, even if earlier attempts
wrote bytes there. -/
theorem download_exhaustion_cleanup (oracle : Nat → FetchOutcome)
    (maxRetries : Nat) (file : Option (List Nat))
    (hfail : ∀ i, (oracle i).isFailure = true)
    (hok : (download_file oracle maxRetries file).ok = false) :
    (download_file oracle maxRetries file).file = none :=
  download_fuel_fail_cleanup oracle maxRetries hfail _ 0 file hok

/-- Witness for C1 at a run where the first attempt writes zero bytes
before its stream raises and both retries raise transport errors. -/
theorem download_exhaustion_cleanup_witness :
    (∀ i, ((fun i => if i = 0 then FetchOutcome.midStream [] else FetchOutcome.error) i).isFailure = true)
    ∧ (download_file (fun i => if i = 0 then FetchOutcome.midStream [] else FetchOutcome.error) 2 none).ok = false
    ∧ (download_file (fun i => if i = 0 then FetchOutcome.midStream [] else FetchOutcome.error) 2 none).file = none :=
  ⟨fun i => by rcases i with _ | n <;> rfl, by decide,
    download_exhaustion_cleanup _ 2 none
      (fun i => by rcases i with _ | n <;> rfl) (by decide)⟩

/-- C2 as stated is false: with `max_retries = 1` and every attempt a
transport error, `download_file` performs `2` fetch attempts in total
(the initial attempt plus one retry), not at most `maxRetries = 1`. -/
theorem download_attempts_counterexample :
    (download_file (fun _ => FetchOutcome.error) 1 none).netCalls = 2
    ∧ ¬ (download_file (fun _ => FetchOutcome.error) 1 none).netCalls ≤ 1 := by
  decide

/-- The number of fetches performed is at most `fuel + 1`. -/
theorem download_fuel_netCalls_le (oracle : Nat → FetchOutcome)
    (maxRetries : Nat) :
    ∀ fuel retryCount file,
      (download_fuel oracle maxRetries fuel retryCount file).netCalls ≤ fuel + 1 := by
  intro fuel
  induction fuel with
  | zero =>
    intro retryCount file
    rw [download_fuel]
    unfold attempt
    by_cases hs : 0 < (file.getD []).length
    · simp [if_pos hs, skipOut]
    · rw [if_neg hs]
      cases oracle retryCount <;>
        simp [notFoundOut, successOut, exhaustOut]
  | succ fuel' ih =>
    intro retryCount file
    rw [download_fuel]
    unfold attempt
    by_cases hs : 0 < (file.getD []).length
    · simp [if_pos hs, skipOut]
    · rw [if_neg hs]
      cases oracle retryCount
      · simp [notFoundOut]
      · have := ih (retryCount + 1) file
        simp only [DLOut.netCalls]
        omega
      · next part =>
          have := ih (retryCount + 1) (some part)
          simp only [DLOut.netCalls]
          omega
      · simp [successOut]

/-- Under an oracle that raises a transport-level error on every attempt
and with no pre-existing file, `download_fuel` performs exactly
`fuel + 1` fetches and sleeps `2 ^ i` seconds for each attempt index `i`
before the next one. -/
theorem download_fuel_error_run (oracle : Nat → FetchOutcome)
    (maxRetries : Nat) (herr : ∀ i, oracle i = FetchOutcome.error) :
    ∀ fuel retryCount,
      (download_fuel oracle maxRetries fuel retryCount none).netCalls = fuel + 1
      ∧ (download_fuel oracle maxRetries fuel retryCount none).sleeps
          = (List.range' retryCount fuel).map (2 ^ ·) := by
  intro fuel
  induction fuel with
  | zero =>
    intro retryCount
    rw [download_fuel]
    unfold attempt
    rw [herr retryCount]
    simp [exhaustOut]
  | succ fuel' ih =>
    intro retryCount
    rw [download_fuel]
    unfold attempt
    rw [herr retryCount]
    simp only [Option.getD_none, List.length_nil, Nat.lt_irrefl, if_false]
    obtain ⟨h1, h2⟩ := ih (retryCount + 1)
    refine ⟨by simpa using h1, ?_⟩
    simp only [h2, List.range'_succ, List.map_cons]

/-- C2 amended: a non-404 failure status or transport-level error makes
`download_file` wait `2 ^ attempt` seconds (attempt counted from 0)
before trying again, and it makes at most `maxRetries + 1` fetch
attempts in total — the initial attempt plus up to `maxRetries` retries
— before giving up: the attempt count never exceeds `maxRetries + 1`,
and a run with all attempts failing at the transport level performs
exactly `maxRetries + 1` attempts with backoff sleeps
`2 ^ 0, 2 ^ 1, …, 2 ^ (maxRetries - 1)` in order. -/
theorem download_backoff_and_attempt_bound (oracle : Nat → FetchOutcome)
    (maxRetries : Nat) (file : Option (List Nat)) :
    (download_file oracle maxRetries file).netCalls ≤ maxRetries + 1
    ∧ ((∀ i, oracle i = FetchOutcome.error) →
        (download_file oracle maxRetries none).netCalls = maxRetries + 1
        ∧ (download_file oracle maxRetries none).sleeps
            = (List.range maxRetries).map (2 ^ ·)) := by
  constructor
  · exact download_fuel_netCalls_le oracle maxRetries _ 0 file
  · intro herr
    obtain ⟨h1, h2⟩ := download_fuel_error_run oracle maxRetries herr maxRetries 0
    refine ⟨by simpa [download_file] using h1, ?_⟩
    rw [download_file] at *
    simpa [List.range_eq_range'] using h2

/-- Witness for C2 amended: three total attempts and sleeps `[1, 2]` when
`max_retries = 2` and every attempt is a transport error. -/
theorem download_backoff_and_attempt_bound_witness :
    (download_file (fun _ => FetchOutcome.error) 2 none).netCalls ≤ 3
    ∧ ((∀ i : Nat, (fun _ : Nat => FetchOutcome.error) i = FetchOutcome.error)
        ∧ (download_file (fun _ => FetchOutcome.error) 2 none).netCalls = 3
        ∧ (download_file (fun _ => FetchOutcome.error) 2 none).sleeps = [1, 2]) := by
  obtain ⟨h1, h2⟩ := download_backoff_and_attempt_bound
    (fun _ => FetchOutcome.error) 2 none
  obtain ⟨h3, h4⟩ := h2 (fun _ => rfl)
  exact ⟨h1, fun _ => rfl, h3, by simpa using h4⟩

/-- C4: if a file already exists at the destination path with non-zero
size, `download_file` returns success with zero network requests and
increments only the `files_skipped` counter, leaving the file
byte-identical; hence a second invocation for an already-downloaded
target performs zero network calls and does not change the file. -/
theorem download_skip_idempotent (oracle : Nat → FetchOutcome)
    (maxRetries : Nat) (content : List Nat) (h : 0 < content.length) :
    (download_file oracle maxRetries (some content)).ok = true
    ∧ (download_file oracle maxRetries (some content)).netCalls = 0
    ∧ (download_file oracle maxRetries (some content)).file = some content
    ∧ (download_file oracle maxRetries (some content)).filesSkipped = 1
    ∧ (download_file oracle maxRetries (some content)).filesDownloaded = 0
    ∧ (download_file oracle maxRetries (some content)).filesFailed = 0
    ∧ (download_file oracle maxRetries (some content)).bytesDownloaded = 0 := by
  rw [download_file_eq]
  simp only [Option.getD_some, if_pos h]
  simp [skipOut]

/-- Witness for C4 at a one-byte pre-existing file. -/
theorem download_skip_idempotent_witness :
    0 < [7].length
    ∧ ((download_file (fun _ => FetchOutcome.error) 3 (some [7])).ok = true
        ∧ (download_file (fun _ => FetchOutcome.error) 3 (some [7])).netCalls = 0
        ∧ (download_file (fun _ => FetchOutcome.error) 3 (some [7])).file = some [7]
        ∧ (download_file (fun _ => FetchOutcome.error) 3 (some [7])).filesSkipped = 1
        ∧ (download_file (fun _ => FetchOutcome.error) 3 (some [7])).filesDownloaded = 0
        ∧ (download_file (fun _ => FetchOutcome.error) 3 (some [7])).filesFailed = 0
        ∧ (download_file (fun _ => FetchOutcome.error) 3 (some [7])).bytesDownloaded = 0) :=
  ⟨by decide, download_skip_idempotent (fun _ => FetchOutcome.error) 3 [7] (by decide)⟩

/-- C6: when no non-empty file pre-exists and the fetch returns 404,
`download_file` returns failure immediately: exactly one network request,
no backoff sleep, no further attempt, and no `'ERROR'`-level log line
(nor a `files_failed` increment). -/
theorem download_404_immediate (oracle : Nat → FetchOutcome)
    (maxRetries : Nat) (file : Option (List Nat))
    (hfile : (file.getD []).length = 0)
    (h404 : oracle 0 = FetchOutcome.status404) :
    (download_file oracle maxRetries file).ok = false
    ∧ (download_file oracle maxRetries file).netCalls = 1
    ∧ (download_file oracle maxRetries file).sleeps = []
    ∧ (download_file oracle maxRetries file).errorLogged = false
    ∧ (download_file oracle maxRetries file).filesFailed = 0 := by
  rw [download_file_eq]
  rw [h404]
  simp [hfile, notFoundOut]

/-- Witness for C6: a 404 on the very first request with no pre-existing
file and a retry budget of 3. -/
theorem download_404_immediate_witness :
    ((Option.getD (none : Option (List Nat)) []).length = 0
      ∧ (fun _ : Nat => FetchOutcome.status404) 0 = FetchOutcome.status404)
    ∧ ((download_file (fun _ => FetchOutcome.status404) 3 none).ok = false
        ∧ (download_file (fun _ => FetchOutcome.status404) 3 none).netCalls = 1
        ∧ (download_file (fun _ => FetchOutcome.status404) 3 none).sleeps = []
        ∧ (download_file (fun _ => FetchOutcome.status404) 3 none).errorLogged = false
        ∧ (download_file (fun _ => FetchOutcome.status404) 3 none).filesFailed = 0) :=
  ⟨⟨by decide, rfl⟩,
    download_404_immediate (fun _ => FetchOutcome.status404) 3 none (by decide) rfl⟩

/-- C9: when the download request returns 404 and no file previously
existed at the destination, `download_file` leaves every stat counter
(`files_downloaded`, `files_skipped`, `files_failed`,
`bytes_downloaded`) unchanged and creates no file or directory at the
destination path. -/
theorem download_404_frame (oracle : Nat → FetchOutcome)
    (maxRetries : Nat) (h404 : oracle 0 = FetchOutcome.status404) :
    (download_file oracle maxRetries none).filesDownloaded = 0
    ∧ (download_file oracle maxRetries none).filesSkipped = 0
    ∧ (download_file oracle maxRetries none).filesFailed = 0
    ∧ (download_file oracle maxRetries none).bytesDownloaded = 0
    ∧ (download_file oracle maxRetries none).file = none
    ∧ (download_file oracle maxRetries none).dirMade = false := by
  rw [download_file_eq]
  rw [h404]
  simp [notFoundOut]

/-- Witness for C9: the 404 outcome is invisible in the counters and on
disk for a concrete run. -/
theorem download_404_frame_witness :
    (fun _ : Nat => FetchOutcome.status404) 0 = FetchOutcome.status404
    ∧ ((download_file (fun _ => FetchOutcome.status404) 2 none).filesDownloaded = 0
        ∧ (download_file (fun _ => FetchOutcome.status404) 2 none).filesSkipped = 0
        ∧ (download_file (fun _ => FetchOutcome.status404) 2 none).filesFailed = 0
        ∧ (download_file (fun _ => FetchOutcome.status404) 2 none).bytesDownloaded = 0
        ∧ (download_file (fun _ => FetchOutcome.status404) 2 none).file = none
        ∧ (download_file (fun _ => FetchOutcome.status404) 2 none).dirMade = false) :=
  ⟨rfl, download_404_frame (fun _ => FetchOutcome.status404) 2 rfl⟩

/-- Outcome of one `session.head(...)` request in
`MasterEngine.check_version_exists`: a status code, or a raised transport
exception. -/
inductive ProbeResult where
  | status (code : Nat)
  | exn
  deriving Repr, DecidableEq

/-- Observable result of one `check_version_exists` call: the returned
boolean, the updated `version_exists_cache`, and the number of HEAD
requests issued. -/
structure ProbeOut where
  result : Bool
  cache : String → Option Bool
  netCalls : Nat

/-- `self.version_exists_cache[version] = b`. -/
def cacheInsert (cache : String → Option Bool) (version : String)
    (b : Bool) : String → Option Bool :=
  fun v => if v = version then some b else cache v

/-- `MasterEngine.check_version_exists` (lines 120-137).  `head1` is the
outcome of the HEAD request against `{root}/{version}/`, `head2` the
outcome of the fallback HEAD against `{root}/{version}/CHANGELOG`
(issued only when the first is conclusive-negative); an exception in
either lands in the `except` handler, which caches and returns
`False`. -/
def check_version_exists (cache : String → Option Bool)
    (head1 head2 : ProbeResult) (version : String) : ProbeOut :=
  match cache version with
  | some b => ⟨b, cache, 0⟩
  | none =>
    match head1 with
    | .exn => ⟨false, cacheInsert cache version false, 1⟩
    | .status c =>
      if c = 200 ∨ c = 301 ∨ c = 302 ∨ c = 403 then
        ⟨true, cacheInsert cache version true, 1⟩
      else
        match head2 with
        | .exn => ⟨false, cacheInsert cache version false, 2⟩
        | .status c2 =>
          ⟨c2 = 200, cacheInsert cache version (c2 = 200), 2⟩

/-- A cache hit answers without issuing any HEAD request (lines
121-122). -/
theorem check_version_exists_cached (cache : String → Option Bool)
    (head1 head2 : ProbeResult) (version : String) (b : Bool)
    (h : cache version = some b) :
    check_version_exists cache head1 head2 version = ⟨b, cache, 0⟩ := by
  unfold check_version_exists
  rw [h]

/-- C5: on an uncached version, `check_version_exists` reports existence
iff the directory HEAD returns a status in `{200, 301, 302, 403}` or,
when that probe is conclusive-negative, the CHANGELOG fallback returns
`200`; any transport exception yields `false`; and the result is cached,
so a repeated probe of the same version returns the same value with zero
further network requests (whatever the network would answer). -/
theorem check_version_exists_spec (cache : String → Option Bool)
    (head1 head2 : ProbeResult) (version : String)
    (h : cache version = none) :
    ((check_version_exists cache head1 head2 version).result = true ↔
      (∃ c, head1 = ProbeResult.status c ∧ (c = 200 ∨ c = 301 ∨ c = 302 ∨ c = 403))
      ∨ (∃ c, head1 = ProbeResult.status c ∧ ¬(c = 200 ∨ c = 301 ∨ c = 302 ∨ c = 403)
          ∧ head2 = ProbeResult.status 200))
    ∧ (head1 = ProbeResult.exn →
        (check_version_exists cache head1 head2 version).result = false)
    ∧ (head2 = ProbeResult.exn → head1 ≠ ProbeResult.exn →
        (∀ c, head1 = ProbeResult.status c → ¬(c = 200 ∨ c = 301 ∨ c = 302 ∨ c = 403)) →
        (check_version_exists cache head1 head2 version).result = false)
    ∧ (∀ head1' head2',
        (check_version_exists
            (check_version_exists cache head1 head2 version).cache
            head1' head2' version).result
          = (check_version_exists cache head1 head2 version).result
        ∧ (check_version_exists
            (check_version_exists cache head1 head2 version).cache
            head1' head2' version).netCalls = 0) := by
  have hcached :
      (check_version_exists cache head1 head2 version).cache version
        = some (check_version_exists cache head1 head2 version).result := by
    unfold check_version_exists
    rw [h]
    cases head1 with
    | exn => simp [cacheInsert]
    | status c =>
      by_cases hc : c = 200 ∨ c = 301 ∨ c = 302 ∨ c = 403
      · simp [if_pos hc, cacheInsert]
      · cases head2 with
        | exn => simp [if_neg hc, cacheInsert]
        | status c2 => simp [if_neg hc, cacheInsert]
  refine ⟨?_, ?_, ?_, ?_⟩
  · unfold check_version_exists
    rw [h]
    cases head1 with
    | exn => simp
    | status c =>
      by_cases hc : c = 200 ∨ c = 301 ∨ c = 302 ∨ c = 403
      · simp [if_pos hc, hc]
      · cases head2 with
        | exn => simp [if_neg hc, hc]
        | status c2 =>
          simp only [if_neg hc]
          constructor
          · intro h200
            exact Or.inr ⟨c, rfl, hc, by simpa using h200⟩
          · rintro (⟨c', hc', hmem⟩ | ⟨c', hc', _, h200⟩)
            · cases hc'; exact absurd hmem hc
            · cases hc'; cases h200; simp
  · intro h1
    subst h1
    unfold check_version_exists
    rw [h]
  · intro h2 h1ne hstat
    cases head1 with
    | exn => exact absurd rfl h1ne
    | status c =>
      subst h2
      unfold check_version_exists
      rw [h]
      simp [if_neg (hstat c rfl)]
  · intro head1' head2'
    rw [check_version_exists_cached _ head1' head2' version _ hcached]
    exact ⟨rfl, rfl⟩

/-- Witness for C5: an uncached version whose directory HEAD returns 404
and whose CHANGELOG HEAD returns 200 is reported as existing, and the
repeated probe is answered from the cache with zero requests. -/
theorem check_version_exists_spec_witness :
    ((fun _ : String => (none : Option Bool)) "6.51" = none)
    ∧ ((check_version_exists (fun _ => none) (ProbeResult.status 404)
          (ProbeResult.status 200) "6.51").result = true
        ∧ (∀ head1' head2',
            (check_version_exists
                (check_version_exists (fun _ => none) (ProbeResult.status 404)
                  (ProbeResult.status 200) "6.51").cache
                head1' head2' "6.51").netCalls = 0)) := by
  have hs := check_version_exists_spec (fun _ => none) (ProbeResult.status 404)
    (ProbeResult.status 200) "6.51" rfl
  refine ⟨rfl, ?_, fun head1' head2' => (hs.2.2.2 head1' head2').2⟩
  exact hs.1.mpr (Or.inr ⟨404, rfl, by decide, rfl⟩)

/-- `base = f"{major}.{minor}"` (line 110). -/
def versionBase (major minor : Nat) : String :=
  Nat.repr major ++ "." ++ Nat.repr minor

/-- `f"{base}.{patch}"` (line 113). -/
def patchEntry (base : String) (patch : Nat) : String :=
  base ++ "." ++ Nat.repr patch

/-- `f"{base}.{patch}rc{rc}"` (line 115). -/
def rcEntry (base : String) (patch rc : Nat) : String :=
  base ++ "." ++ Nat.repr patch ++ "rc" ++ Nat.repr rc

/-- `f"{base}.{patch}beta{beta}"` (line 117). -/
def betaEntry (base : String) (patch beta : Nat) : String :=
  base ++ "." ++ Nat.repr patch ++ "beta" ++ Nat.repr beta

/-- The entries appended during one iteration of the `patch` loop
(lines 112-117), in source order. -/
def patchGroup (base : String) (patch : Nat) : List String :=
  patchEntry base patch ::
    ((List.range' 1 5).map (rcEntry base patch)
      ++ (List.range' 1 5).map (betaEntry base patch))

/-- The entries appended during one iteration of the `minor` loop
(lines 110-117), in source order: the base, then the 20 patch groups. -/
def versionBlock (major minor : Nat) : List String :=
  versionBase major minor ::
    (List.range' 1 20).flatMap (patchGroup (versionBase major minor))

/-- `MasterEngine.generate_all_version_numbers` (lines 104-118):
`range(start, stop)` is `List.range' start (stop - start)`, and the
appends of the nested loops are the corresponding `flatMap`s. -/
def generate_all_version_numbers
    (start_major start_minor end_major end_minor : Nat) : List String :=
  (List.range' start_major (end_major + 1 - start_major)).flatMap fun major =>
    let min_minor := if major = start_major then start_minor else 0
    let max_minor := if major = end_major then end_minor else 99
    (List.range' min_minor (max_minor + 1 - min_minor)).flatMap fun minor =>
      versionBlock major minor

/-- The `(major, minor)` pairs traversed by the two outer loops of
`generate_all_version_numbers`, in order. -/
def majorMinorPairs
    (start_major start_minor end_major end_minor : Nat) : List (Nat × Nat) :=
  (List.range' start_major (end_major + 1 - start_major)).flatMap fun major =>
    let min_minor := if major = start_major then start_minor else 0
    let max_minor := if major = end_major then end_minor else 99
    (List.range' min_minor (max_minor + 1 - min_minor)).map fun minor =>
      (major, minor)

/-- The 220 version suffixes every `major.minor` block appends after its
base entry, each to be prefixed with `base ++ "."`. -/
def patchSuffixes : List String :=
  (List.range' 1 20).flatMap fun patch =>
    Nat.repr patch ::
      ((List.range' 1 5).map (fun rc => Nat.repr patch ++ "rc" ++ Nat.repr rc)
        ++ (List.range' 1 5).map (fun beta => Nat.repr patch ++ "beta" ++ Nat.repr beta))

theorem append_left_injective (s : String) :
    Function.Injective (fun t => s ++ t) := by
  intro t₁ t₂ h
  have hd := congrArg String.data h
  simp only [String.data_append] at hd
  exact String.ext (List.append_cancel_left hd)

theorem versionBlock_eq_map (major minor : Nat) :
    versionBlock major minor
      = versionBase major minor ::
          patchSuffixes.map (fun t => versionBase major minor ++ "." ++ t) := by
  unfold versionBlock patchSuffixes
  rw [List.map_flatMap]
  congr 1
  congr 1
  funext p
  simp [patchGroup, patchEntry, rcEntry, betaEntry, Function.comp,
    String.append_assoc]
  congr 1
  · congr 1
    funext rc
    simp [rcEntry, Function.comp, String.append_assoc]
  · congr 1
    funext b
    simp [betaEntry, Function.comp, String.append_assoc]

theorem base_ne_dotted (b t : String) : b ≠ b ++ "." ++ t := by
  intro h
  have hl := congrArg String.length h
  rw [String.length_append, String.length_append] at hl
  have hdot : ".".length = 1 := rfl
  omega

theorem patchSuffixes_length : patchSuffixes.length = 220 := by decide

theorem patchSuffixes_countP_patch :
    patchSuffixes.countP
      (fun t => decide (∃ p ∈ List.range' 1 20, t = Nat.repr p)) = 20 := by
  decide

theorem patchSuffixes_countP_rc :
    ∀ p ∈ List.range' 1 20,
      patchSuffixes.countP
        (fun t => decide (∃ rc ∈ List.range' 1 5,
          t = Nat.repr p ++ "rc" ++ Nat.repr rc)) = 5 := by
  decide

theorem patchSuffixes_countP_beta :
    ∀ p ∈ List.range' 1 20,
      patchSuffixes.countP
        (fun t => decide (∃ b ∈ List.range' 1 5,
          t = Nat.repr p ++ "beta" ++ Nat.repr b)) = 5 := by
  decide

theorem rcEntry_eq (b : String) (p rc : Nat) :
    rcEntry b p rc = b ++ "." ++ (Nat.repr p ++ "rc" ++ Nat.repr rc) := by
  simp [rcEntry, String.append_assoc]

theorem betaEntry_eq (b : String) (p beta : Nat) :
    betaEntry b p beta = b ++ "." ++ (Nat.repr p ++ "beta" ++ Nat.repr beta) := by
  simp [betaEntry, String.append_assoc]

theorem versionBlock_count_base (M m : Nat) :
    (versionBlock M m).count (versionBase M m) = 1 := by
  rw [versionBlock_eq_map, List.count_cons]
  have h0 : (patchSuffixes.map
      (fun t => versionBase M m ++ "." ++ t)).count (versionBase M m) = 0 := by
    rw [List.count_eq_zero]
    intro hmem
    rcases List.mem_map.mp hmem with ⟨t, _, ht⟩
    exact base_ne_dotted (versionBase M m) t ht.symm
  rw [h0]
  simp

theorem versionBlock_countP_patch (M m : Nat) :
    (versionBlock M m).countP
      (fun s => decide (∃ p ∈ List.range' 1 20,
        s = patchEntry (versionBase M m) p)) = 20 := by
  rw [versionBlock_eq_map, List.countP_cons, List.countP_map]
  have hbase : ∀ x : Nat, 1 ≤ x → x < 21 →
      ¬ versionBase M m = patchEntry (versionBase M m) x :=
    fun x _ _ => base_ne_dotted (versionBase M m) (Nat.repr x)
  rw [List.countP_congr (q := fun t => decide (∃ p ∈ List.range' 1 20,
      t = Nat.repr p))]
  · simp [patchSuffixes_countP_patch]
    exact hbase
  · intro t ht
    simp only [Function.comp, decide_eq_true_eq]
    constructor
    · rintro ⟨p, hpmem, hp⟩
      exact ⟨p, hpmem, append_left_injective (versionBase M m ++ ".") hp⟩
    · rintro ⟨p, hpmem, hp⟩
      exact ⟨p, hpmem, congrArg (fun t => versionBase M m ++ "." ++ t) hp⟩

theorem versionBlock_countP_rc (M m : Nat) :
    ∀ p ∈ List.range' 1 20,
      (versionBlock M m).countP
        (fun s => decide (∃ rc ∈ List.range' 1 5,
          s = rcEntry (versionBase M m) p rc)) = 5 := by
  intro p hp
  rw [versionBlock_eq_map, List.countP_cons, List.countP_map]
  have hbase : ∀ x : Nat, 1 ≤ x → x < 6 →
      ¬ versionBase M m = rcEntry (versionBase M m) p x := by
    intro x _ _ hx
    rw [rcEntry_eq] at hx
    exact base_ne_dotted (versionBase M m) _ hx
  rw [List.countP_congr (q := fun t => decide (∃ rc ∈ List.range' 1 5,
      t = Nat.repr p ++ "rc" ++ Nat.repr rc))]
  · simp [patchSuffixes_countP_rc p hp]
    exact hbase
  · intro t ht
    simp only [Function.comp, decide_eq_true_eq, rcEntry_eq]
    constructor
    · rintro ⟨rc, hrcmem, hrc⟩
      exact ⟨rc, hrcmem, append_left_injective (versionBase M m ++ ".") hrc⟩
    · rintro ⟨rc, hrcmem, hrc⟩
      exact ⟨rc, hrcmem, congrArg (fun t => versionBase M m ++ "." ++ t) hrc⟩

theorem versionBlock_countP_beta (M m : Nat) :
    ∀ p ∈ List.range' 1 20,
      (versionBlock M m).countP
        (fun s => decide (∃ b ∈ List.range' 1 5,
          s = betaEntry (versionBase M m) p b)) = 5 := by
  intro p hp
  rw [versionBlock_eq_map, List.countP_cons, List.countP_map]
  have hbase : ∀ x : Nat, 1 ≤ x → x < 6 →
      ¬ versionBase M m = betaEntry (versionBase M m) p x := by
    intro x _ _ hx
    rw [betaEntry_eq] at hx
    exact base_ne_dotted (versionBase M m) _ hx
  rw [List.countP_congr (q := fun t => decide (∃ b ∈ List.range' 1 5,
      t = Nat.repr p ++ "beta" ++ Nat.repr b))]
  · simp [patchSuffixes_countP_beta p hp]
    exact hbase
  · intro t ht
    simp only [Function.comp, decide_eq_true_eq, betaEntry_eq]
    constructor
    · rintro ⟨b, hbmem, hb⟩
      exact ⟨b, hbmem, append_left_injective (versionBase M m ++ ".") hb⟩
    · rintro ⟨b, hbmem, hb⟩
      exact ⟨b, hbmem, congrArg (fun t => versionBase M m ++ "." ++ t) hb⟩

theorem generate_eq_pairs (sM sm eM em : Nat) :
    generate_all_version_numbers sM sm eM em
      = (majorMinorPairs sM sm eM em).flatMap
          (fun p => versionBlock p.1 p.2) := by
  unfold generate_all_version_numbers majorMinorPairs
  simp only [List.flatMap_assoc, List.flatMap_map]

theorem versionBlock_length (M m : Nat) :
    (versionBlock M m).length = 221 := by
  rw [versionBlock_eq_map]
  simp [patchSuffixes_length]

theorem generate_length (sM sm eM em : Nat) :
    (generate_all_version_numbers sM sm eM em).length
      = 221 * (majorMinorPairs sM sm eM em).length := by
  rw [generate_eq_pairs, List.length_flatMap]
  have hconst : (List.length ∘ fun p : Nat × Nat => versionBlock p.1 p.2)
      = fun _ : Nat × Nat => 221 :=
    funext fun p => versionBlock_length p.1 p.2
  rw [hconst, List.map_const', List.sum_replicate]
  simp [Nat.mul_comm]

theorem majorMinorPairs_mem (sM sm eM em M m : Nat) :
    (M, m) ∈ majorMinorPairs sM sm eM em ↔
      (sM ≤ M ∧ M ≤ eM
        ∧ (if M = sM then sm else 0) ≤ m
        ∧ m ≤ (if M = eM then em else 99)) := by
  unfold majorMinorPairs
  simp only [List.mem_flatMap, List.mem_map, List.mem_range',
    Prod.mk.injEq, one_mul]
  constructor
  · rintro ⟨major, ⟨i, hi, hmaj⟩, minor, ⟨j, hj, hmin⟩, hM, hm⟩
    subst hM hm hmaj hmin
    split_ifs at * <;> omega
  · rintro ⟨h1, h2, h3, h4⟩
    refine ⟨M, ⟨M - sM, by omega, by omega⟩,
      m, ⟨m - (if M = sM then sm else 0), ?_, ?_⟩, rfl, rfl⟩
    · split_ifs at * <;> omega
    · split_ifs at * <;> omega

/-- C3: for every range with `startMajor ≤ endMajor`,
`generate_all_version_numbers` emits one version block per `major.minor`
pair of the range (minor bounded to `[startMinor, 99]` on the start
major, `[0, endMinor]` on the end major, `[0, 99]` on interior majors),
and each block contains exactly one base entry, exactly 20 patch
entries, and per patch exactly 5 `rc` and 5 `beta` variants, so each
block has 221 entries and the output length is `221 *` the number of
pairs — a pure deterministic function of the range. -/
theorem generator_counts
    (start_major start_minor end_major end_minor : Nat)
    (_h : start_major ≤ end_major) :
    generate_all_version_numbers start_major start_minor end_major end_minor
      = (majorMinorPairs start_major start_minor end_major end_minor).flatMap
          (fun p => versionBlock p.1 p.2)
    ∧ (∀ M m, (M, m) ∈ majorMinorPairs start_major start_minor end_major end_minor ↔
        (start_major ≤ M ∧ M ≤ end_major
          ∧ (if M = start_major then start_minor else 0) ≤ m
          ∧ m ≤ (if M = end_major then end_minor else 99)))
    ∧ (∀ M m, (versionBlock M m).count (versionBase M m) = 1)
    ∧ (∀ M m, (versionBlock M m).countP
        (fun s => decide (∃ p ∈ List.range' 1 20,
          s = patchEntry (versionBase M m) p)) = 20)
    ∧ (∀ M m, ∀ p ∈ List.range' 1 20,
        (versionBlock M m).countP
          (fun s => decide (∃ rc ∈ List.range' 1 5,
            s = rcEntry (versionBase M m) p rc)) = 5
        ∧ (versionBlock M m).countP
          (fun s => decide (∃ b ∈ List.range' 1 5,
            s = betaEntry (versionBase M m) p b)) = 5)
    ∧ (∀ M m, (versionBlock M m).length = 221)
    ∧ (generate_all_version_numbers start_major start_minor end_major end_minor).length
        = 221 * (majorMinorPairs start_major start_minor end_major end_minor).length := by
  refine ⟨generate_eq_pairs _ _ _ _,
    fun M m => majorMinorPairs_mem _ _ _ _ M m,
    versionBlock_count_base,
    versionBlock_countP_patch,
    fun M m p hp => ⟨versionBlock_countP_rc M m p hp,
      versionBlock_countP_beta M m p hp⟩,
    versionBlock_length,
    generate_length _ _ _ _⟩

/-- Witness for C3 at the range `6.40 .. 7.2`: the pair list is
`(6,40) … (6,99), (7,0), (7,1), (7,2)` (63 pairs) and the output length
is `221 * 63`. -/
theorem generator_counts_witness :
    6 ≤ 7
    ∧ (generate_all_version_numbers 6 40 7 2).length
        = 221 * (majorMinorPairs 6 40 7 2).length
    ∧ (majorMinorPairs 6 40 7 2).length = 63 :=
  ⟨by decide,
    (generator_counts 6 40 7 2 (by decide)).2.2.2.2.2.2,
    by decide⟩

/-! ## RSS delta discovery

`MasterEngine.scan_rss_for_versions` (lines 282-293) runs
`re.findall(r'RouterOS v?(\d+\.\d+(?:\.\d+)?(?:rc\d+)?(?:beta\d+)?)', r.text)`,
deduplicates via `set(...)` and keeps the tokens not in
`self.found_versions`.  The regex engine is embedded as a left-to-right,
non-overlapping scanner over the character list; no backtracking is
needed because every `\d+` is followed by a non-digit literal. -/

/-- `\d+`: the maximal non-empty digit run at the head. -/
def matchDigits (cs : List Char) : Option (List Char × List Char) :=
  let ds := cs.takeWhile Char.isDigit
  if ds.isEmpty then none else some (ds, cs.drop ds.length)

/-- `\d+\.\d+(?:\.\d+)?(?:rc\d+)?(?:beta\d+)?` at the head of `cs`:
the captured characters and the remainder. -/
def matchVersionCore (cs : List Char) : Option (List Char × List Char) :=
  match matchDigits cs with
  | none => none
  | some (d1, r1) =>
    match r1 with
    | '.' :: r2 =>
      match matchDigits r2 with
      | none => none
      | some (d2, r3) =>
        let po :=
          match r3 with
          | '.' :: r =>
            match matchDigits r with
            | some (d3, r') => ('.' :: d3, r')
            | none => (([] : List Char), r3)
          | _ => (([] : List Char), r3)
        let pr :=
          match po.2 with
          | 'r' :: 'c' :: r =>
            match matchDigits r with
            | some (d4, r') => ('r' :: 'c' :: d4, r')
            | none => (([] : List Char), po.2)
          | _ => (([] : List Char), po.2)
        let pb :=
          match pr.2 with
          | 'b' :: 'e' :: 't' :: 'a' :: r =>
            match matchDigits r with
            | some (d5, r') => ('b' :: 'e' :: 't' :: 'a' :: d5, r')
            | none => (([] : List Char), pr.2)
          | _ => (([] : List Char), pr.2)
        some (d1 ++ '.' :: d2 ++ po.1 ++ pr.1 ++ pb.1, pb.2)
    | _ => none

/-- `RouterOS v?(version)` at the head of `cs`; the optional `v` needs no
backtracking because the version group must start with a digit. -/
def matchRouterOS (cs : List Char) : Option (List Char × List Char) :=
  match cs with
  | 'R' :: 'o' :: 'u' :: 't' :: 'e' :: 'r' :: 'O' :: 'S' :: ' ' :: r =>
    match r with
    | 'v' :: rv => matchVersionCore rv
    | _ => matchVersionCore r
  | _ => none

/-- Left-to-right non-overlapping scan (the semantics of `re.findall`):
try a match at every position, resume after each match.  The fuel is the
remaining length; every step consumes at least one character. -/
def findVersions : Nat → List Char → List String
  | 0, _ => []
  | _, [] => []
  | fuel + 1, c :: rest =>
    match matchRouterOS (c :: rest) with
    | some (cap, rem) => String.mk cap :: findVersions fuel rem
    | none => findVersions fuel rest

/-- `re.findall(r'RouterOS v?(...)', body)` (line 286). -/
def scan_rss_tokens (body : String) : List String :=
  findVersions body.length body.data

/-- `MasterEngine.scan_rss_for_versions` (lines 282-293): on a fetched
body, the matched tokens are deduplicated (`set(...)`; a Python set has
no specified iteration order, `List.dedup` is one faithful choice) and
filtered against `found_versions`; a fetch failure returns `[]` from the
`except` handler. -/
def scan_rss_for_versions (fetch : Except Unit String)
    (found : Finset String) : List String :=
  match fetch with
  | .error _ => []
  | .ok body =>
    let vers := (scan_rss_tokens body).dedup
    vers.filter (fun v => decide (v ∉ found))

/-! ## Engine state and the found-version set -/

/-- The four file-related counters of `self.gui.stats` that
`download_file` mutates. -/
structure FileStats where
  files_downloaded : Nat
  files_skipped : Nat
  files_failed : Nat
  bytes_downloaded : Nat
  deriving Repr, DecidableEq

/-- The mutable state of one `MasterEngine` instance that the claims
range over: the existence cache, the found-version set, the remaining
stat counters, and the artifact filesystem (path → content). -/
structure EngineState where
  version_exists_cache : String → Option Bool
  found_versions : Finset String
  versions_tested : Nat
  versions_found : Nat
  current_version : String
  fstats : FileStats
  fsys : String → Option (List Nat)

/-- `MasterEngine._load_persisted` (lines 78-86): `data` is the parsed
`versions` list of `found_versions.json`, or `none` when the file is
absent or unreadable (the `except` branch passes). -/
def load_persisted (s : EngineState) (data : Option (List String)) :
    EngineState :=
  match data with
  | none => s
  | some versions =>
    { s with found_versions :=
        versions.foldl (fun fv v => insert v fv) s.found_versions }

/-- `MasterEngine.process_version` (lines 200-223).  `dl` abstracts the
download-pool phase (lines 214-221): it receives the filesystem and the
file counters — the only state `download_file` touches — and returns
their new values. -/
def process_version (head1 head2 : ProbeResult)
    (dl : (String → Option (List Nat)) → FileStats →
      (String → Option (List Nat)) × FileStats)
    (version : String) (s : EngineState) : Nat × EngineState :=
  let probe := check_version_exists s.version_exists_cache head1 head2 version
  let s₁ := { s with version_exists_cache := probe.cache }
  if probe.result then
    let s₂ := { s₁ with
      found_versions := insert version s₁.found_versions,
      versions_found := s₁.versions_found + 1,
      current_version := version }
    let r := dl s₂.fsys s₂.fstats
    (1, { s₂ with fsys := r.1, fstats := r.2 })
  else
    (0, s₁)

/-- `MasterEngine.save_found_versions` (lines 225-231): writes the sorted
set (the returned payload); the in-memory state is read, not mutated. -/
def save_found_versions (s : EngineState) : List String × EngineState :=
  (s.found_versions.sort (· ≤ ·), s)

/-- `MasterEngine.save_stats` (lines 233-240): writes the stats snapshot
and the sorted set; the in-memory state is read, not mutated. -/
def save_stats (s : EngineState) :
    (FileStats × List String) × EngineState :=
  ((s.fstats, s.found_versions.sort (· ≤ ·)), s)

/-- Python `str.split('.')` on a character list: pieces between dots,
empty pieces kept. -/
def splitDots : List Char → List (List Char)
  | [] => [[]]
  | c :: rest =>
    if c = '.' then [] :: splitDots rest
    else
      match splitDots rest with
      | [] => [[c]]
      | p :: ps => (c :: p) :: ps

/-- Python `int(...)` on the numerals that version bounds are made of:
a non-empty all-digit piece parses to its value, anything else raises
(`none`). -/
def parseNat (cs : List Char) : Option Nat :=
  if cs.isEmpty || !cs.all Char.isDigit then none
  else some (cs.foldl (fun n c => 10 * n + (c.toNat - 48)) 0)

/-- Lines 243-248: `major = int(parts[0])`,
`minor = int(parts[1]) if len(parts) > 1 else dflt` (`dflt` is 0 for the
start bound, 50 for the end bound); a raising `int(...)` aborts the scan
(`none`). -/
def parse_major_minor (v : String) (dflt : Nat) : Option (Nat × Nat) :=
  match splitDots v.data with
  | [] => none
  | p0 :: rest =>
    match parseNat p0 with
    | none => none
    | some major =>
      match rest with
      | [] => some (major, dflt)
      | p1 :: _ =>
        match parseNat p1 with
        | none => none
        | some minor => some (major, minor)

/-- One completed existence-probe future of the scan loop
(lines 254-264): thread the cache, count the test, append the version to
`existing` when the probe succeeded. -/
def scan_probe_step (probeOracle : String → ProbeResult × ProbeResult)
    (acc : EngineState × List String) (v : String) :
    EngineState × List String :=
  let r := check_version_exists acc.1.version_exists_cache
    (probeOracle v).1 (probeOracle v).2 v
  ({ acc.1 with version_exists_cache := r.cache,
                versions_tested := acc.1.versions_tested + 1 },
    if r.result then acc.2 ++ [v] else acc.2)

/-- One iteration of the download loop (lines 273-278). -/
def scan_dl_step (probeOracle : String → ProbeResult × ProbeResult)
    (dlOf : String → (String → Option (List Nat)) → FileStats →
      (String → Option (List Nat)) × FileStats)
    (st : EngineState) (v : String) : EngineState :=
  (process_version (probeOracle v).1 (probeOracle v).2 (dlOf v) v st).2

/-- `MasterEngine.scan_versions_range_and_download` (lines 242-280):
parse the bounds, generate the candidate space, probe it (the futures'
completions are modelled in submission order — the set-level state is
order-independent), merge the hits into `found_versions`, persist, then
process each hit in sorted order.  `probeOracle v` supplies the two HEAD
outcomes for `v`, `dlOf v` the download-pool effect for `v`. -/
def scan_versions_range_and_download (start_version end_version : String)
    (probeOracle : String → ProbeResult × ProbeResult)
    (dlOf : String → (String → Option (List Nat)) → FileStats →
      (String → Option (List Nat)) × FileStats)
    (s : EngineState) : Option EngineState :=
  match parse_major_minor start_version 0, parse_major_minor end_version 50 with
  | some (sM, sm), some (eM, em) =>
    let all := generate_all_version_numbers sM sm eM em
    let probed := all.foldl (scan_probe_step probeOracle) (s, [])
    let s₂ := { probed.1 with found_versions :=
      probed.1.found_versions ∪ probed.2.toFinset }
    some ((probed.2.mergeSort (fun a b => decide (a ≤ b))).foldl
      (scan_dl_step probeOracle dlOf) s₂)
  | _, _ => none

theorem subset_foldl_insert (data : List String) :
    ∀ fv : Finset String,
      fv ⊆ data.foldl (fun acc v => insert v acc) fv := by
  induction data with
  | nil => intro fv; exact Finset.Subset.refl fv
  | cons a t ih =>
    intro fv
    rw [List.foldl_cons]
    exact (Finset.subset_insert a fv).trans (ih (insert a fv))

theorem process_version_found_superset (head1 head2 : ProbeResult)
    (dl : (String → Option (List Nat)) → FileStats →
      (String → Option (List Nat)) × FileStats)
    (version : String) (s : EngineState) :
    s.found_versions ⊆
      (process_version head1 head2 dl version s).2.found_versions := by
  unfold process_version
  by_cases hp :
      (check_version_exists s.version_exists_cache head1 head2 version).result
        = true
  · rw [if_pos hp]
    exact Finset.subset_insert version s.found_versions
  · rw [if_neg hp]

theorem probe_fold_found (probeOracle : String → ProbeResult × ProbeResult) :
    ∀ (l : List String) (acc : EngineState × List String),
      ((l.foldl (scan_probe_step probeOracle) acc).1).found_versions
        = acc.1.found_versions := by
  intro l
  induction l with
  | nil => intro acc; rfl
  | cons a t ih =>
    intro acc
    rw [List.foldl_cons, ih]
    rfl

theorem dl_fold_found_superset
    (probeOracle : String → ProbeResult × ProbeResult)
    (dlOf : String → (String → Option (List Nat)) → FileStats →
      (String → Option (List Nat)) × FileStats) :
    ∀ (l : List String) (st : EngineState),
      st.found_versions ⊆
        (l.foldl (scan_dl_step probeOracle dlOf) st).found_versions := by
  intro l
  induction l with
  | nil => intro st; exact Finset.Subset.refl _
  | cons a t ih =>
    intro st
    rw [List.foldl_cons]
    exact (process_version_found_superset _ _ _ a st).trans
      (ih (scan_dl_step probeOracle dlOf st a))

theorem scan_found_superset (start_version end_version : String)
    (probeOracle : String → ProbeResult × ProbeResult)
    (dlOf : String → (String → Option (List Nat)) → FileStats →
      (String → Option (List Nat)) × FileStats)
    (s : EngineState) :
    s.found_versions ⊆
      ((scan_versions_range_and_download start_version end_version
          probeOracle dlOf s).getD s).found_versions := by
  unfold scan_versions_range_and_download
  rcases parse_major_minor start_version 0 with - | ⟨sM, sm⟩
  · exact Finset.Subset.refl _
  rcases parse_major_minor end_version 50 with - | ⟨eM, em⟩
  · exact Finset.Subset.refl _
  simp only [Option.getD_some]
  refine Finset.Subset.trans ?_ (dl_fold_found_superset probeOracle dlOf _ _)
  rw [← probe_fold_found probeOracle
    (generate_all_version_numbers sM sm eM em) (s, [])]
  exact Finset.subset_union_left

/-- C7: the found-version set grows monotonically: loading persisted
state only adds versions, `process_version` either inserts the probed
version or leaves the set unchanged, a whole
`scan_versions_range_and_download` run only extends the set, and the two
persistence operations return the state unchanged (they only read it).
No engine operation removes a version. -/
theorem found_versions_monotone :
    (∀ (s : EngineState) (data : Option (List String)),
      s.found_versions ⊆ (load_persisted s data).found_versions)
    ∧ (∀ (head1 head2 : ProbeResult) dl (version : String) (s : EngineState),
        s.found_versions ⊆
          (process_version head1 head2 dl version s).2.found_versions)
    ∧ (∀ (start_version end_version : String) probeOracle dlOf
          (s : EngineState),
        s.found_versions ⊆
          ((scan_versions_range_and_download start_version end_version
              probeOracle dlOf s).getD s).found_versions)
    ∧ (∀ s : EngineState, (save_found_versions s).2 = s)
    ∧ (∀ s : EngineState, (save_stats s).2 = s) := by
  refine ⟨?_, process_version_found_superset, scan_found_superset,
    fun _ => rfl, fun _ => rfl⟩
  intro s data
  cases data with
  | none => exact Finset.Subset.refl _
  | some versions => exact subset_foldl_insert versions s.found_versions

/-- C10: when the existence probe reports `false`, `process_version`
returns `0` and leaves the found-version set, every stat counter, and
the filesystem unchanged (only the probe cache is refreshed) — an RSS
delta version whose re-probe fails is silently skipped, not
downloaded. -/
theorem process_version_probe_false (head1 head2 : ProbeResult)
    (dl : (String → Option (List Nat)) → FileStats →
      (String → Option (List Nat)) × FileStats)
    (version : String) (s : EngineState)
    (hprobe : (check_version_exists s.version_exists_cache head1 head2
        version).result = false) :
    (process_version head1 head2 dl version s).1 = 0
    ∧ (process_version head1 head2 dl version s).2.found_versions
        = s.found_versions
    ∧ (process_version head1 head2 dl version s).2.versions_tested
        = s.versions_tested
    ∧ (process_version head1 head2 dl version s).2.versions_found
        = s.versions_found
    ∧ (process_version head1 head2 dl version s).2.fstats = s.fstats
    ∧ (process_version head1 head2 dl version s).2.fsys = s.fsys
    ∧ (process_version head1 head2 dl version s).2.current_version
        = s.current_version := by
  unfold process_version
  rw [if_neg (by rw [hprobe]; exact Bool.false_ne_true)]
  exact ⟨rfl, rfl, rfl, rfl, rfl, rfl, rfl⟩

/-- Witness for C10: a probe answering 404 on both HEADs over an empty
cache reports `false`, and `process_version` then changes nothing but
the cache. -/
theorem process_version_probe_false_witness :
    (check_version_exists (fun _ => none) (ProbeResult.status 404)
        (ProbeResult.status 404) "9.99").result = false
    ∧ ((process_version (ProbeResult.status 404) (ProbeResult.status 404)
          (fun fs st => (fs, st)) "9.99"
          ⟨fun _ => none, ∅, 0, 0, "", ⟨0, 0, 0, 0⟩, fun _ => none⟩).1 = 0
        ∧ (process_version (ProbeResult.status 404) (ProbeResult.status 404)
            (fun fs st => (fs, st)) "9.99"
            ⟨fun _ => none, ∅, 0, 0, "", ⟨0, 0, 0, 0⟩, fun _ => none⟩).2.found_versions
          = (∅ : Finset String)) :=
  ⟨by decide,
    (process_version_probe_false (ProbeResult.status 404)
      (ProbeResult.status 404) (fun fs st => (fs, st)) "9.99"
      ⟨fun _ => none, ∅, 0, 0, "", ⟨0, 0, 0, 0⟩, fun _ => none⟩
      (by decide)).1,
    (process_version_probe_false (ProbeResult.status 404)
      (ProbeResult.status 404) (fun fs st => (fs, st)) "9.99"
      ⟨fun _ => none, ∅, 0, 0, "", ⟨0, 0, 0, 0⟩, fun _ => none⟩
      (by decide)).2.1⟩

/-- The feed body of the C8 example: tokens `7.16.2`, `7.15.1`, `7.15.1`
(one duplicate). -/
def rssExampleBody : String :=
  "RouterOS 7.16.2 released. RouterOS v7.15.1 update. RouterOS 7.15.1 again."

/-- C8: on a fetched body, `scan_rss_for_versions` returns exactly the
extracted version tokens that are not already in the found-version set,
each at most once; on the example body with tokens `7.16.2`, `7.15.1`,
`7.15.1` and found set `{7.15.1}` the delta is exactly `[7.16.2]`; and a
fetch failure yields the empty delta. -/
theorem scan_rss_delta_spec :
    (∀ (body : String) (found : Finset String) (v : String),
        v ∈ scan_rss_for_versions (Except.ok body) found ↔
          (v ∈ scan_rss_tokens body ∧ v ∉ found))
    ∧ (∀ (body : String) (found : Finset String),
        (scan_rss_for_versions (Except.ok body) found).Nodup)
    ∧ scan_rss_for_versions (Except.ok rssExampleBody) {"7.15.1"}
        = ["7.16.2"]
    ∧ (∀ found : Finset String,
        scan_rss_for_versions (Except.error ()) found = []) := by
  refine ⟨?_, ?_, by decide, fun _ => rfl⟩
  · intro body found v
    simp [scan_rss_for_versions, List.mem_filter, List.mem_dedup]
  · intro body found
    exact ((scan_rss_tokens body).nodup_dedup).filter _

end MikroTik
